import Mathlib

/-
Verification of the Black Eagle Arrows inventory scraper against its
natural-language specification.

The Python source consists of a live module (`utils/playwright_utils.py`,
imported by `launcher.py`) and an older standalone variant (`scraper.py`).
Pure logic is embedded directly; page-interaction functions are embedded by
abstracting the browser into the data they read (extracted pagination
numbers, attribute option lists, oracle answers), faithfully keeping the
arithmetic and control flow of the source.
-/

set_option maxHeartbeats 1000000

namespace BlackEagle

/-- Embedding of `get_all_combinations(*lists)` from
`utils/data_manipulation_utils.py` (identical in `scraper.py`):
`list(itertools.product(*lists))`.  `itertools.product` iterates the first
list in the outermost loop and the last list in the innermost loop, which is
exactly this recursion: for axes `l :: ls`, every combination starting with
the first element of `l` is produced before any combination starting with its
second element. -/
def get_all_combinations : List (List String) → List (List String)
  | [] => [[]]
  | l :: ls => l.flatMap fun x => (get_all_combinations ls).map fun c => x :: c

/-- A stored product record, abstracted to the single field that
`check_handled_url` reads (`item['product_name']`). -/
structure Record where
  product_name : String
deriving DecidableEq

/-- Embedding of `check_handled_url(page, data)` from
`utils/playwright_utils.py` (same expression in `scraper.py`):

    attrs_dict = await get_options_dict(page)
    all_combinations = get_all_combinations(*(attrs_dict.values()))
    return len(list(all_combinations)) == len([item['product_name'] == page.url for item in data])

The page is abstracted into the attribute option lists read from it (`axes`)
and its URL (`page_url`).  Note the right-hand side is the length of the list
comprehension, one Boolean per record. -/
def check_handled_url (axes : List (List String)) (page_url : String)
    (data : List Record) : Bool :=
  (get_all_combinations axes).length ==
    (data.map fun item => item.product_name == page_url).length

/-- The number of stored records whose `product_name` equals the page URL:
the quantity the specification's deduplication note says `check_handled_url`
compares against (the count of records for which the Boolean-equality
expression is true). -/
def matching_records_count (page_url : String) (data : List Record) : Nat :=
  data.countP fun item => item.product_name == page_url

/-- Embedding of `get_total_pages(page)` from `utils/playwright_utils.py`
(identical in `scraper.py`):

    pagination_numbers = selector.xpath(...).re(r'\d+')
    return max([int(number) for number in pagination_numbers]) if pagination_numbers else 1

The page content is abstracted into the list of regex matches parsed as
(necessarily non-negative) integers.  Python's `max` over a non-empty list of
naturals equals `foldl max 0`. -/
def get_total_pages (pagination_numbers : List Nat) : Nat :=
  if pagination_numbers.isEmpty then 1 else pagination_numbers.foldl max 0

/-- The deterministic synthetic oracle of the specification's prober test:
AVAILABLE exactly when the requested quantity `n` satisfies `n <= Q`. -/
def avail (Q n : Nat) : Bool :=
  decide (n ≤ Q)

/-- Embedding of the `while left <= right` loop of `get_inventory_value` in
`scraper.py`:

    left, right = 1, check_value - 1
    while left <= right:
        mid = (left + right) // 2
        if await try_inventory_quantity(page, mid):
            left = mid + 1
        else:
            right = mid - 1
    return right

The first component of the result is the returned `right`, the second counts
the oracle calls made by the loop.  The `fuel` argument is the interval width
`right + 1 - left` at entry; each iteration strictly shrinks the interval
(`mid` lies in `[left, right]`), so with that fuel the recursion performs
exactly the iterations of the Python loop (`bsearch_width_zero` below shows a
spent interval makes no further calls). -/
def bsearch (oracle : Nat → Bool) : Nat → Nat → Nat → Nat × Nat
  | 0, _, right => (right, 0)
  | fuel + 1, left, right =>
    if left ≤ right then
      let mid := (left + right) / 2
      if oracle mid then
        let r := bsearch oracle fuel (mid + 1) right
        (r.1, r.2 + 1)
      else
        let r := bsearch oracle fuel left (mid - 1)
        (r.1, r.2 + 1)
    else (right, 0)

/-- Embedding of `get_inventory_value(page, check_value)` from `scraper.py`:

    if await try_inventory_quantity(page, check_value):
        return check_value
    else:
        left, right = 1, check_value - 1
        ...binary search...
        return right

The cart oracle is abstracted into a Boolean function of the probed quantity.
First component: returned quantity; second component: number of oracle calls
(one initial call plus the loop's calls). -/
def get_inventory_value_scraper (oracle : Nat → Bool) (check_value : Nat) :
    Nat × Nat :=
  if oracle check_value then (check_value, 1)
  else
    let r := bsearch oracle (check_value - 1) 1 (check_value - 1)
    (r.1, r.2 + 1)

/-- Loop state of `get_inventory_value` in `utils/playwright_utils.py`:
the local variables `inventory`, `check_value` and `try_count` (the latter is
set to `-100000`, hence an integer). -/
structure ProbeState where
  inventory : Nat
  check_value : Nat
  try_count : Int
deriving DecidableEq

/-- One iteration of the `while True` loop of `get_inventory_value` in
`utils/playwright_utils.py`:

    try_count += 1
    if try_count > 10:
        check_value += 50000
        try_count = -100000
    availability = await try_inventory_quantity(page, check_value, logger)
    if availability:
        inventory += check_value
    else:
        check_value = check_value // 2
    if check_value == 1 and not availability:
        break

`Sum.inr inv` is the `break` (the function then returns `inventory`);
`Sum.inl` carries the state into the next iteration. -/
def pw_step (oracle : Nat → Bool) (s : ProbeState) : ProbeState ⊕ Nat :=
  let tc1 : Int := s.try_count + 1
  let cv1 : Nat := if tc1 > 10 then s.check_value + 50000 else s.check_value
  let tc2 : Int := if tc1 > 10 then -100000 else tc1
  let availability : Bool := oracle cv1
  let inv : Nat := if availability then s.inventory + cv1 else s.inventory
  let cv2 : Nat := if availability then cv1 else cv1 / 2
  if cv2 = 1 ∧ availability = false then Sum.inr inv else Sum.inl ⟨inv, cv2, tc2⟩

/-- Fuel-indexed iteration of `pw_step`: `some inv` when the loop breaks
within `fuel` iterations and returns `inventory`, `none` while it is still
running.  The Python loop has no other exit. -/
def pw_loop (oracle : Nat → Bool) : Nat → ProbeState → Option Nat
  | 0, _ => none
  | fuel + 1, s =>
    match pw_step oracle s with
    | Sum.inr inv => some inv
    | Sum.inl s' => pw_loop oracle fuel s'

/-- Embedding of `get_inventory_value(page, check_value, logger)` from
`utils/playwright_utils.py`: the out-of-stock short circuit

    inventory = 0
    try_count = 0
    if await check_out_of_stock(page):
        return inventory

followed by the `while True` loop (`pw_step`/`pw_loop`).  The page is
abstracted into the oracle and the out-of-stock flag. -/
def get_inventory_value_pw (oracle : Nat → Bool) (out_of_stock : Bool)
    (check_value : Nat) (fuel : Nat) : Option Nat :=
  if out_of_stock then some 0 else pw_loop oracle fuel ⟨0, check_value, 0⟩

/-- Embedding of the click-retry loop inside `try_inventory_quantity` in
`utils/playwright_utils.py`:

    count = 0
    while True:
        try:
            await page.click('//input[@id="form-action-addToCart"]')
            break
        except TimeoutError:
            count += 1
            if count % 5 == 0:
                await page.reload()
                continue
            continue

`click_succeeds n` abstracts whether the click attempt made after `n`
failures goes through (the reload every fifth failure only changes page
state, not the loop structure).  `some n` means the loop broke after `n`
failed attempts; `none` means it is still retrying after `fuel` attempts. -/
def click_loop (click_succeeds : Nat → Bool) : Nat → Nat → Option Nat
  | 0, _ => none
  | fuel + 1, count =>
    if click_succeeds count then some count
    else click_loop click_succeeds fuel (count + 1)

/-- Outcome of the cart-interaction body of `try_inventory_quantity`
(`utils/playwright_utils.py`): either the body reached one of its `return`
statements with a Boolean, or some exception escaped the body. -/
inductive CartOutcome where
  | result : Bool → CartOutcome
  | failure : CartOutcome
deriving DecidableEq

/-- Embedding of the exception wrapper of `try_inventory_quantity` in
`utils/playwright_utils.py`:

    except Exception as e:
        logger.error(...)
        raise TimeoutError # todo later delete this
        return False

An escaping exception is converted into a raised `TimeoutError`
(`Except.error ()`); the trailing `return False` is unreachable. -/
def try_inventory_quantity_outcome : CartOutcome → Except Unit Bool
  | CartOutcome.result b => Except.ok b
  | CartOutcome.failure => Except.error ()

/-- The variant loop of `inventory_identifier` (`utils/playwright_utils.py`),
abstracted to the per-combination probe results: each combination yields
either a stock quantity (appended to `data`) or a raised `TimeoutError`.
A raised error aborts the loop: earlier combinations' records are kept
(they were appended to the shared `data` list as the loop ran), later
combinations are never probed. -/
def variant_loop : List (Except Unit Nat) → List Nat × Option Unit
  | [] => ([], none)
  | Except.ok q :: rest =>
    let r := variant_loop rest
    (q :: r.1, r.2)
  | Except.error e :: _ => ([], some e)

/-- Embedding of the probing branch of `handle_url`
(`utils/playwright_utils.py`):

    try:
        await inventory_identifier(page, primary_item, logger, data)
    except TimeoutError:
        logger.error(...)
        failed_urls.add(url)
        ...

`probes` lists the per-combination probe outcomes; on a raised error the
product URL is added to the `failed_urls` set (modelled as a duplicate-free
list with Python's `set.add` = `List.insert`). -/
def handle_url_probe (url : String) (probes : List (Except Unit Nat))
    (data : List Nat) (failed : List String) : List Nat × List String :=
  match variant_loop probes with
  | (ds, some _) => (data ++ ds, failed.insert url)
  | (ds, none) => (data ++ ds, failed)

/-- A product task as `gather_with_concurrency` sees it after `handle_url`'s
outer `except Exception` wrapper: the URL together with either a scraped
record (abstracted to its stock quantity) or an error caught inside the
task. -/
def run_task (acc : List Nat × List String) (t : String × Except Unit Nat) :
    List Nat × List String :=
  match t.2 with
  | Except.ok v => (acc.1 ++ [v], acc.2)
  | Except.error _ => (acc.1, acc.2.insert t.1)

/-- Embedding of one batch of `gather_with_concurrency(n, *tasks)` over
`handle_url` tasks (`utils/playwright_utils.py`).  Each task catches its own
errors (`except Exception as e: ... failed_urls.add(url)`), so the batch is a
fold over all tasks: a succeeding task appends its record to the shared
`data` list, a failing task adds its URL to the `failed_urls` set and nothing
is propagated to the other tasks. -/
def run_product_batch (tasks : List (String × Except Unit Nat))
    (data : List Nat) (failed : List String) : List Nat × List String :=
  tasks.foldl run_task (data, failed)

/-- Embedding of the per-page persistence step of `handle_listing`
(`utils/playwright_utils.py`):

    products_urls = load_products_urls()
    new_urls = await get_page_products_urls(page)
    products_urls = products_urls.union(new_urls)
    pickle.dump(products_urls, open('products_urls.pkl', 'wb'))

The persisted pickle is modelled as a `Finset String`; the listing page is
abstracted into the URLs extracted from it. -/
def merge_product_urls (store : Finset String) (new_urls : List String) :
    Finset String :=
  store ∪ new_urls.toFinset

/-- One `handle_listing` task: it walks its pagination pages in order and
merges each page's extracted product URLs into the persisted store. -/
def handle_listing_pages (store : Finset String) (pages : List (List String)) :
    Finset String :=
  pages.foldl merge_product_urls store

/-- The listing phase of `run` (`utils/playwright_utils.py`): all listing
tasks are gathered (each contributing its pages' URLs to the persisted
store) before anything else happens.  `listings` is one list of pages per
listing task, each page being its extracted product URLs. -/
def listing_phase (store : Finset String) (listings : List (List (List String))) :
    Finset String :=
  listings.foldl handle_listing_pages store

/-- The set of URLs the product phase of `run` iterates over:
`products_urls = load_products_urls()` is evaluated only after
`await gather_with_concurrency(2, *listing_tasks)` has completed, so it reads
the persisted store as left by all listing tasks. -/
def product_phase_urls (store : Finset String)
    (listings : List (List (List String))) : Finset String :=
  listing_phase store listings

/-- The union of the product URLs produced by the listing tasks themselves
(every page of every listing task), without any previously persisted URLs. -/
def listing_union (listings : List (List (List String))) : Finset String :=
  listings.flatten.flatten.toFinset

/-- Embedding of the enumeration guard of `inventory_identifier`
(`utils/playwright_utils.py`):

    attrs_dict = await get_options_dict(page)
    if not attrs_dict:
        raise NotImplementedError("handling pages with no select inside will be added later")
    all_combinations = get_all_combinations(*(attrs_dict.values()))

`attrs_values` is the list of option-value lists of the page's attribute
axes; the result is the raised error or the enumerated combinations the
variant loop then iterates over. -/
def inventory_identifier_combinations (attrs_values : List (List String)) :
    Except String (List (List String)) :=
  if attrs_values.isEmpty then
    Except.error "handling pages with no select inside will be added later"
  else Except.ok (get_all_combinations attrs_values)

/-! ### Variant enumeration (`get_all_combinations`) -/

lemma get_all_combinations_length (axes : List (List String)) :
    (get_all_combinations axes).length = (axes.map List.length).prod := by
  induction axes with
  | nil => simp [get_all_combinations]
  | cons l ls ih =>
    simp [get_all_combinations, ih, Function.comp_def, List.map_const]

lemma mem_get_all_combinations {axes : List (List String)} {c : List String} :
    c ∈ get_all_combinations axes ↔ List.Forall₂ (fun v l => v ∈ l) c axes := by
  induction axes generalizing c with
  | nil => simp [get_all_combinations, List.forall₂_nil_right_iff]
  | cons l ls ih =>
    simp only [get_all_combinations, List.mem_flatMap, List.mem_map,
      List.forall₂_cons_right_iff]
    constructor
    · rintro ⟨x, hx, c', hc', rfl⟩
      exact ⟨x, c', hx, ih.mp hc', rfl⟩
    · rintro ⟨x, c', hx, h2, rfl⟩
      exact ⟨x, hx, c', ih.mpr h2, rfl⟩

lemma get_all_combinations_nodup {axes : List (List String)}
    (h : ∀ l ∈ axes, l.Nodup) : (get_all_combinations axes).Nodup := by
  induction axes with
  | nil => simp [get_all_combinations]
  | cons l ls ih =>
    rw [get_all_combinations, List.nodup_flatMap]
    constructor
    · intro x _
      exact (ih fun t ht => h t (List.mem_cons_of_mem _ ht)).map
        fun a b hab => by injection hab
    · have hl : l.Nodup := h l (List.mem_cons_self l ls)
      refine hl.imp ?_
      intro a b hne
      intro z hz1 hz2
      simp only [Function.onFun, List.mem_map] at hz1 hz2
      obtain ⟨c1, _, rfl⟩ := hz1
      obtain ⟨c2, _, heq⟩ := hz2
      exact hne (by injection heq.symm)

lemma flatMap_singleton_eq_map {α β : Type} (l : List α) (f : α → β) :
    (l.flatMap fun x => [f x]) = l.map f := by
  induction l with
  | nil => rfl
  | cons a l ih => simp [List.flatMap_cons, ih]

lemma get_all_combinations_append_axis (axes : List (List String))
    (l : List String) :
    get_all_combinations (axes ++ [l]) =
      (get_all_combinations axes).flatMap fun c => l.map fun v => c ++ [v] := by
  induction axes with
  | nil =>
    simp [get_all_combinations, flatMap_singleton_eq_map]
  | cons a axes ih =>
    simp only [List.cons_append, get_all_combinations, List.append_eq, ih,
      List.map_flatMap, List.flatMap_assoc, List.flatMap_map, List.map_map,
      Function.comp_def]

/-! ### The scraper.py binary-search prober -/

lemma bsearch_width_zero (oracle : Nat → Bool) (fuel left right : Nat)
    (h : right + 1 - left = 0) : bsearch oracle fuel left right = (right, 0) := by
  cases fuel with
  | zero => rfl
  | succ n =>
    rw [bsearch]
    rw [if_neg (by omega)]

lemma bsearch_fst (Q : Nat) : ∀ fuel left right, left ≤ Q + 1 → Q ≤ right →
    right + 1 - left ≤ fuel → (bsearch (avail Q) fuel left right).1 = Q := by
  intro fuel
  induction fuel with
  | zero =>
    intro l r h1 h2 h3
    have : r = Q := by omega
    simp [bsearch, this]
  | succ n ih =>
    intro l r h1 h2 h3
    rw [bsearch]
    by_cases hlr : l ≤ r
    · rw [if_pos hlr]
      have hmid1 : l ≤ (l + r) / 2 := by omega
      have hmid2 : (l + r) / 2 ≤ r := by omega
      by_cases hm : (l + r) / 2 ≤ Q
      · rw [if_pos (by simp [avail, hm])]
        exact ih ((l + r) / 2 + 1) r (by omega) h2 (by omega)
      · rw [if_neg (by simp [avail, hm])]
        exact ih l ((l + r) / 2 - 1) h1 (by omega) (by omega)
    · rw [if_neg hlr]
      have : r = Q := by omega
      simp [this]

lemma bsearch_snd_le (oracle : Nat → Bool) : ∀ fuel left right, 1 ≤ left →
    (bsearch oracle fuel left right).2 ≤ Nat.log 2 (right + 1 - left) + 1 := by
  intro fuel
  induction fuel with
  | zero => intro l r _; simp [bsearch]
  | succ n ih =>
    intro l r hl
    rw [bsearch]
    by_cases hlr : l ≤ r
    · rw [if_pos hlr]
      set w := r + 1 - l with hw
      have hw1 : 1 ≤ w := by omega
      by_cases hw2 : w = 1
      · have hmid : (l + r) / 2 = l := by omega
        by_cases ho : oracle ((l + r) / 2)
        · rw [if_pos ho]
          have hz : (bsearch oracle n ((l + r) / 2 + 1) r).2 = 0 := by
            have := bsearch_width_zero oracle n ((l + r) / 2 + 1) r (by omega)
            rw [this]
          simp [hz, hw2]
        · rw [if_neg ho]
          have hz : (bsearch oracle n l ((l + r) / 2 - 1)).2 = 0 := by
            have := bsearch_width_zero oracle n l ((l + r) / 2 - 1) (by omega)
            rw [this]
          simp [hz, hw2]
      · have hw3 : 2 ≤ w := by omega
        have hlog1 : 1 ≤ Nat.log 2 w := Nat.log_pos (by omega) (by omega)
        have hhalf : Nat.log 2 (w / 2) = Nat.log 2 w - 1 := Nat.log_div_base 2 w
        by_cases ho : oracle ((l + r) / 2)
        · rw [if_pos ho]
          have hrec := ih ((l + r) / 2 + 1) r (by omega)
          have hmono : Nat.log 2 (r + 1 - ((l + r) / 2 + 1)) ≤ Nat.log 2 (w / 2) :=
            Nat.log_mono_right (by omega)
          simp only []
          omega
        · rw [if_neg ho]
          have hrec := ih l ((l + r) / 2 - 1) hl
          have hmono : Nat.log 2 ((l + r) / 2 - 1 + 1 - l) ≤ Nat.log 2 (w / 2) :=
            Nat.log_mono_right (by omega)
          simp only []
          omega
    · rw [if_neg hlr]
      simp

/-! ### The playwright_utils.py prober loop -/

lemma pw_step_avail_seven (s : ProbeState) :
    ∀ v, pw_step (avail 7) s ≠ Sum.inr v := by
  intro v
  simp only [pw_step]
  generalize (if s.try_count + 1 > 10 then s.check_value + 50000
    else s.check_value) = cv
  by_cases hb : cv ≤ 7
  · simp [avail, hb]
  · have h2 : cv / 2 ≠ 1 := by omega
    simp [avail, hb, h2]

lemma pw_loop_avail_seven : ∀ fuel s, pw_loop (avail 7) fuel s = none := by
  intro fuel
  induction fuel with
  | zero => intro s; rfl
  | succ n ih =>
    intro s
    rw [pw_loop]
    cases h : pw_step (avail 7) s with
    | inl s' => exact ih s'
    | inr v => exact absurd h (pw_step_avail_seven s v)

lemma click_loop_never (fuel count : Nat) :
    click_loop (fun _ => false) fuel count = none := by
  induction fuel generalizing count with
  | zero => rfl
  | succ n ih => simpa [click_loop] using ih (count + 1)

/-! ### Pagination maximum -/

lemma le_foldl_max (l : List Nat) : ∀ a : Nat,
    a ≤ l.foldl max a ∧ ∀ n ∈ l, n ≤ l.foldl max a := by
  induction l with
  | nil => intro a; simp
  | cons x l ih =>
    intro a
    refine ⟨le_trans (le_max_left a x) (ih (max a x)).1, ?_⟩
    intro n hn
    rcases List.mem_cons.mp hn with rfl | hn
    · exact le_trans (le_max_right a n) (ih (max a n)).1
    · exact (ih (max a x)).2 n hn

/-! ### Product batch (task executor with per-task error capture) -/

lemma run_product_batch_fst (tasks : List (String × Except Unit Nat)) :
    ∀ data failed, (run_product_batch tasks data failed).1 =
      data ++ tasks.filterMap fun t => t.2.toOption := by
  induction tasks with
  | nil => intro data failed; simp [run_product_batch]
  | cons t ts ih =>
    intro data failed
    obtain ⟨u, r⟩ := t
    cases r with
    | ok v =>
      simp only [run_product_batch, List.foldl_cons, run_task] at ih ⊢
      rw [ih (data ++ [v]) failed]
      simp [Except.toOption]
    | error e =>
      simp only [run_product_batch, List.foldl_cons, run_task] at ih ⊢
      rw [ih data (failed.insert u)]
      simp [Except.toOption]

lemma run_product_batch_nodup (tasks : List (String × Except Unit Nat)) :
    ∀ data failed, failed.Nodup → (run_product_batch tasks data failed).2.Nodup := by
  induction tasks with
  | nil => intro data failed h; simpa [run_product_batch] using h
  | cons t ts ih =>
    intro data failed h
    obtain ⟨u, r⟩ := t
    cases r with
    | ok v => exact ih (data ++ [v]) failed h
    | error e => exact ih data (failed.insert u) h.insert

lemma run_product_batch_mem_mono (tasks : List (String × Except Unit Nat)) :
    ∀ data failed u, u ∈ failed → u ∈ (run_product_batch tasks data failed).2 := by
  induction tasks with
  | nil => intro data failed u h; simpa [run_product_batch] using h
  | cons t ts ih =>
    intro data failed u h
    obtain ⟨w, r⟩ := t
    cases r with
    | ok v => exact ih (data ++ [v]) failed u h
    | error e =>
      exact ih data (failed.insert w) u (List.mem_insert_of_mem h)

lemma run_product_batch_mem_of_error (tasks : List (String × Except Unit Nat)) :
    ∀ data failed u e, (u, Except.error e) ∈ tasks →
      u ∈ (run_product_batch tasks data failed).2 := by
  induction tasks with
  | nil => intro data failed u e h; simp at h
  | cons t ts ih =>
    intro data failed u e h
    obtain ⟨w, r⟩ := t
    rcases List.mem_cons.mp h with heq | hmem
    · cases heq
      exact run_product_batch_mem_mono ts data (failed.insert u) u
        (List.mem_insert_self u failed)
    · cases r with
      | ok v => exact ih (data ++ [v]) failed u e hmem
      | error e' => exact ih data (failed.insert w) u e hmem

/-! ### Listing phase and URL store -/

lemma handle_listing_pages_eq (pages : List (List String)) :
    ∀ store, handle_listing_pages store pages = store ∪ pages.flatten.toFinset := by
  induction pages with
  | nil => intro store; simp [handle_listing_pages]
  | cons p ps ih =>
    intro store
    simp only [handle_listing_pages, List.foldl_cons] at ih ⊢
    rw [ih (merge_product_urls store p)]
    simp [merge_product_urls, List.flatten_cons, Finset.union_assoc]

lemma listing_phase_eq (listings : List (List (List String))) :
    ∀ store, listing_phase store listings = store ∪ listing_union listings := by
  induction listings with
  | nil => intro store; simp [listing_phase, listing_union]
  | cons pages rest ih =>
    intro store
    simp only [listing_phase, List.foldl_cons] at ih ⊢
    rw [ih (handle_listing_pages store pages), handle_listing_pages_eq]
    simp [listing_union, List.flatten_cons, Finset.union_assoc]

/-! ### Zero-option axes -/

lemma get_all_combinations_of_mem_nil {axes : List (List String)}
    (h : [] ∈ axes) : get_all_combinations axes = [] := by
  induction axes with
  | nil => simp at h
  | cons l ls ih =>
    rcases List.mem_cons.mp h with rfl | h
    · simp [get_all_combinations]
    · simp [get_all_combinations, ih h]

/-! ### Variant loop abort -/

lemma variant_loop_abort (pre : List Nat) (post : List (Except Unit Nat)) :
    variant_loop (pre.map Except.ok ++ Except.error () :: post) = (pre, some ()) := by
  induction pre with
  | nil => rfl
  | cons q pre ih => simp [variant_loop, ih]

/-! ## Claim theorems -/

/-- Claim C1, counterexample.  The claim says the stock prober
(`get_inventory_value` with its default upper guess 100) returns exactly `Q`
for the synthetic oracle AVAILABLE iff `n <= Q`.  For `Q = 1` the live
prober (`utils/playwright_utils.py`) halves 100 down to 3, sees 3
unavailable, sets `check_value = 1` and breaks without ever probing 1,
returning inventory 0, not 1.  (The loop breaks within 6 iterations, so any
fuel of at least 6 witnesses the returned value; `some` means the loop
terminated with that return value.) -/
theorem claim1_counterexample :
    get_inventory_value_pw (avail 1) false 100 20 = some 0 ∧ (0 : Nat) ≠ 1 := by
  constructor
  · rfl
  · decide

/-- Claim C1 (amended): for the synthetic oracle AVAILABLE iff `n <= Q`, the
`scraper.py` prober `get_inventory_value` with upper guess `check_value >= 1`
returns exactly `min Q check_value` — equal to `Q` precisely when
`Q <= check_value` — using at most `log2 check_value + 2` oracle calls; the
live `utils/playwright_utils.py` prober instead returns 0 for `Q <= 2` and
never terminates for `Q >= 3` (see the C2 theorems). -/
theorem claim1_amended (Q check_value : Nat) (h : 1 ≤ check_value) :
    (get_inventory_value_scraper (avail Q) check_value).1 = min Q check_value ∧
    (get_inventory_value_scraper (avail Q) check_value).2 ≤
      Nat.log 2 check_value + 2 := by
  cases hav : avail Q check_value with
  | true =>
    have hq : check_value ≤ Q := by simpa [avail] using hav
    simp only [get_inventory_value_scraper, hav, if_true]
    exact ⟨by omega, by omega⟩
  | false =>
    have hq : Q < check_value := by simpa [avail] using hav
    simp only [get_inventory_value_scraper, hav, Bool.false_eq_true, if_false]
    constructor
    · show (bsearch (avail Q) (check_value - 1) 1 (check_value - 1)).1 =
        min Q check_value
      rw [bsearch_fst Q (check_value - 1) 1 (check_value - 1) (by omega)
        (by omega) (by omega)]
      omega
    · show (bsearch (avail Q) (check_value - 1) 1 (check_value - 1)).2 + 1 ≤
        Nat.log 2 check_value + 2
      have hc := bsearch_snd_le (avail Q) (check_value - 1) 1 (check_value - 1)
        (by omega)
      have hm : Nat.log 2 (check_value - 1 + 1 - 1) ≤ Nat.log 2 check_value :=
        Nat.log_mono_right (by omega)
      omega

/-- Witness for C1 (amended) at `Q = 7`, upper guess 100. -/
theorem claim1_amended_witness :
    1 ≤ 100 ∧ ((get_inventory_value_scraper (avail 7) 100).1 = min 7 100 ∧
      (get_inventory_value_scraper (avail 7) 100).2 ≤ Nat.log 2 100 + 2) :=
  ⟨by omega, claim1_amended 7 100 (by omega)⟩

/-- Claim C2, counterexample.  The claim says the probe always terminates
with a bounded number of oracle calls.  For the deterministic oracle
AVAILABLE iff `n <= 7` and the default guess 100, the `while True` loop of
`get_inventory_value` (`utils/playwright_utils.py`) is still running after
300 iterations (and, by `claim2_amended`, after any number of iterations):
the break condition `check_value == 1 and not availability` requires an
unavailable probe at quantity 2 or 3, impossible when `Q >= 3`. -/
theorem claim2_counterexample :
    get_inventory_value_pw (avail 7) false 100 300 = none := by
  simpa [get_inventory_value_pw] using pw_loop_avail_seven 300 ⟨0, 100, 0⟩

/-- Claim C2 (amended): the retry and probe loops of
`utils/playwright_utils.py` are unbounded, not budgeted.  The cart-click
retry loop of `try_inventory_quantity` retries forever under persistent
timeouts (never degrading to UNAVAILABLE), and the probe loop of
`get_inventory_value` need not terminate at all: for the oracle AVAILABLE
iff `n <= 7` it never exits, from any loop state, so the number of oracle
calls made by one probe is unbounded.  (Exhaustion of a budget is never
treated as UNAVAILABLE — there is no budget; a non-timeout error instead
raises TimeoutError out of the probe, see C10.) -/
theorem claim2_amended :
    (∀ fuel count : Nat, click_loop (fun _ => false) fuel count = none) ∧
    (∀ (fuel : Nat) (s : ProbeState), pw_loop (avail 7) fuel s = none) :=
  ⟨click_loop_never, pw_loop_avail_seven⟩

/-- Claim C3: `get_all_combinations` over axes with option lists of sizes
`k1..kn` yields exactly `k1 * ... * kn` combinations (conjunct 1), pairwise
distinct when each axis's option values are distinct (conjunct 2), with
position `i` of every combination drawn from axis `i` — membership is
exactly `Forall₂ (· ∈ ·)` against the axis list, which also fixes each
combination's length (conjunct 3) — in nested-iteration order with the last
axis varying fastest: appending a final axis multiplies each existing
combination in place by that axis's options, innermost (conjunct 4).
Re-enumeration stability is immediate: `get_all_combinations` is a pure
function of the axes. -/
theorem claim3_enumeration (axes : List (List String)) :
    (get_all_combinations axes).length = (axes.map List.length).prod ∧
    ((∀ l ∈ axes, l.Nodup) → (get_all_combinations axes).Nodup) ∧
    (∀ c, c ∈ get_all_combinations axes ↔
      List.Forall₂ (fun v l => v ∈ l) c axes) ∧
    (∀ l : List String, get_all_combinations (axes ++ [l]) =
      (get_all_combinations axes).flatMap fun c => l.map fun v => c ++ [v]) :=
  ⟨get_all_combinations_length axes, get_all_combinations_nodup,
    fun _ => mem_get_all_combinations, get_all_combinations_append_axis axes⟩

/-- Witness for C3 at the specification's example axes
`[Color = Red, Blue; Size = S, M, L]`. -/
theorem claim3_enumeration_witness :
    (get_all_combinations [["Red", "Blue"], ["S", "M", "L"]]).length = 6 ∧
    (get_all_combinations [["Red", "Blue"], ["S", "M", "L"]]).Nodup :=
  ⟨((claim3_enumeration [["Red", "Blue"], ["S", "M", "L"]]).1).trans (by decide),
    (claim3_enumeration [["Red", "Blue"], ["S", "M", "L"]]).2.1 (by decide)⟩

/-- Claim C4, counterexample.  The claim says a zero-axis product is still
probed and recorded without raising any error.  `get_all_combinations` alone
does yield the single empty combination, but `inventory_identifier`
(`utils/playwright_utils.py`) checks `if not attrs_dict` first and raises
NotImplementedError, so the zero-axis product is never probed. -/
theorem claim4_counterexample :
    inventory_identifier_combinations [] =
      Except.error "handling pages with no select inside will be added later" ∧
    get_all_combinations ([] : List (List String)) = [[]] :=
  ⟨rfl, rfl⟩

/-- Claim C4 (amended): for zero attribute axes the enumerator
`get_all_combinations` yields exactly one combination with an empty
attribute list, but `inventory_identifier` raises NotImplementedError before
enumerating, so the product is not probed or recorded (its URL lands in
`failed_urls` via `handle_url`); an axis with zero options yields zero
combinations for the whole product and no error. -/
theorem claim4_amended :
    get_all_combinations ([] : List (List String)) = [[]] ∧
    inventory_identifier_combinations [] =
      Except.error "handling pages with no select inside will be added later" ∧
    (∀ axes : List (List String), [] ∈ axes → get_all_combinations axes = []) ∧
    (∀ axes : List (List String), axes ≠ [] →
      inventory_identifier_combinations axes =
        Except.ok (get_all_combinations axes)) := by
  refine ⟨rfl, rfl, fun axes h => get_all_combinations_of_mem_nil h,
    fun axes h => ?_⟩
  simp [inventory_identifier_combinations, h]

/-- Witness for C4 (amended) at one non-empty axis list containing a
zero-option axis. -/
theorem claim4_amended_witness :
    get_all_combinations [["a"], []] = [] ∧
    inventory_identifier_combinations [["a"], []] = Except.ok [] := by
  have h1 := claim4_amended.2.2.1 [["a"], []] (by simp)
  have h2 := claim4_amended.2.2.2 [["a"], []] (by simp)
  exact ⟨h1, by rw [h2, h1]⟩

/-- Claim C5, counterexample.  The claim says `check_handled_url` compares
the combination count to a count that is almost always 0 (the count of
records whose `product_name` equals the page URL), so that for non-matching
data the result is determined by that count.  With two stored records, none
matching the URL, and two combinations, the match count is 0 yet
`check_handled_url` returns `true` (2 combinations = 2 records): the code
compares against the length of the Boolean list, not the number of `true`
entries in it. -/
theorem claim5_counterexample :
    check_handled_url [["a", "b"]] "u" [⟨"x"⟩, ⟨"y"⟩] = true ∧
    matching_records_count "u" [⟨"x"⟩, ⟨"y"⟩] = 0 ∧
    (get_all_combinations [["a", "b"]]).length ≠ 0 := by
  refine ⟨rfl, rfl, by decide⟩

/-- Claim C5 (amended): the deduplication check is indeed defective — it
never tests membership of variant keys — but the quantity it compares
against is the total number of stored records (the length of the list
comprehension `[item['product_name'] == page.url for item in data]`, one
Boolean per record regardless of its value), not a near-zero match count:
`check_handled_url` returns exactly whether the page's combination count
equals `len(data)`, independent of the page URL and of which variants were
resolved. -/
theorem claim5_amended (axes : List (List String)) (page_url : String)
    (data : List Record) :
    check_handled_url axes page_url data =
      ((get_all_combinations axes).length == data.length) := by
  simp [check_handled_url]

/-- Claim C6: a product task that raises is caught inside the task
(`handle_url`'s `except Exception`), its URL is recorded in the
`failed_urls` set exactly once, and sibling tasks in the batch all complete:
the batch's data is exactly the initial data plus every succeeding task's
record, regardless of interleaved failures. -/
theorem claim6_isolation (tasks : List (String × Except Unit Nat))
    (data : List Nat) (failed : List String) (hnd : failed.Nodup) :
    (run_product_batch tasks data failed).1 =
      data ++ tasks.filterMap (fun t => t.2.toOption) ∧
    ∀ u e, (u, Except.error e) ∈ tasks →
      (run_product_batch tasks data failed).2.count u = 1 :=
  ⟨run_product_batch_fst tasks data failed, fun u e h =>
    List.count_eq_one_of_mem (run_product_batch_nodup tasks data failed hnd)
      (run_product_batch_mem_of_error tasks data failed u e h)⟩

/-- Witness for C6: a batch of three tasks whose middle task fails. -/
theorem claim6_isolation_witness :
    (run_product_batch
      [("a", Except.ok 1), ("b", Except.error ()), ("c", Except.ok 2)]
      [] []).2.count "b" = 1 :=
  (claim6_isolation
    [("a", Except.ok 1), ("b", Except.error ()), ("c", Except.ok 2)]
    [] [] (by simp)).2 "b" () (by simp)

/-- Claim C7, counterexample.  The claim says the set of URLs the product
phase iterates over equals the union of the product URLs produced by the
listing tasks.  `load_products_urls` reloads the persisted
`products_urls.pkl`, so URLs persisted by earlier runs are iterated too:
with a previously persisted URL and listing tasks producing nothing, the
product phase iterates over a non-empty set while the listing union is
empty. -/
theorem claim7_counterexample :
    product_phase_urls {"old"} [] = {"old"} ∧
    listing_union [] = ∅ ∧
    ({"old"} : Finset String) ≠ (∅ : Finset String) := by
  refine ⟨rfl, rfl, by simp⟩

/-- Claim C7 (amended): all listing tasks complete before the product phase
starts (`run` awaits the listing gather and only then loads the store the
product tasks are built from), and the set of URLs the product phase
iterates over equals the union of the previously persisted product-URL set
with the product URLs produced by the listing tasks — exactly the listing
union when the persisted store starts empty. -/
theorem claim7_amended (store : Finset String)
    (listings : List (List (List String))) :
    product_phase_urls store listings = store ∪ listing_union listings ∧
    product_phase_urls ∅ listings = listing_union listings := by
  refine ⟨listing_phase_eq listings store, ?_⟩
  have h := listing_phase_eq listings ∅
  simpa using h

/-- Claim C8: merging the same collection of product URLs twice yields the
same persisted set as merging it once, and a merge never removes a
previously persisted URL. -/
theorem claim8_merge (store : Finset String) (new_urls : List String) :
    merge_product_urls (merge_product_urls store new_urls) new_urls =
      merge_product_urls store new_urls ∧
    store ⊆ merge_product_urls store new_urls := by
  refine ⟨?_, Finset.subset_union_left⟩
  simp [merge_product_urls, Finset.union_assoc]

/-- Claim C9, counterexample.  The claim says `get_total_pages` returns an
integer at least 1 for every listing page content.  The pagination numbers
are whatever `re(r'\d+')` extracts from the pagination anchors; a page whose
only extracted number is 0 makes `max` return 0, below 1. -/
theorem claim9_counterexample :
    get_total_pages [0] = 0 ∧ ¬(1 ≤ get_total_pages [0]) := by decide

/-- Claim C9 (amended): `get_total_pages` returns exactly 1 when no
pagination numbers are found, and otherwise returns the maximum of the
extracted numbers — an upper bound of them all, hence at least 1 whenever
at least one extracted pagination number is at least 1 (every realistic
pagination), but 0 when all extracted numbers are 0. -/
theorem claim9_amended :
    get_total_pages [] = 1 ∧
    (∀ (nums : List Nat), ∀ n ∈ nums, n ≤ get_total_pages nums) ∧
    (∀ nums : List Nat, (∃ n ∈ nums, 1 ≤ n) → 1 ≤ get_total_pages nums) := by
  have key : ∀ (nums : List Nat), ∀ n ∈ nums, n ≤ get_total_pages nums := by
    intro nums n hn
    rcases nums with _ | ⟨a, l⟩
    · simp at hn
    · simpa [get_total_pages] using (le_foldl_max (a :: l) 0).2 n hn
  exact ⟨rfl, key, fun nums h => by
    obtain ⟨n, hn, h1⟩ := h
    exact le_trans h1 (key nums n hn)⟩

/-- Witness for C9 (amended) at a singleton pagination list. -/
theorem claim9_amended_witness : 1 ≤ get_total_pages [3] :=
  claim9_amended.2.2 [3] ⟨3, by simp, by omega⟩

/-- Claim C10: an exception escaping the cart-interaction body of
`try_inventory_quantity` raises TimeoutError (never the documented
`return False`), and a raised error aborts the product's whole variant
loop: combinations after the failing one are not probed, only the records
appended before the failure survive, and the product URL is added to the
`failed_urls` set by `handle_url`'s TimeoutError handler. -/
theorem claim10_raise (url : String) (pre : List Nat)
    (post : List (Except Unit Nat)) (data : List Nat) (failed : List String) :
    try_inventory_quantity_outcome CartOutcome.failure = Except.error () ∧
    try_inventory_quantity_outcome CartOutcome.failure ≠ Except.ok false ∧
    handle_url_probe url (pre.map Except.ok ++ Except.error () :: post) data
      failed = (data ++ pre, failed.insert url) := by
  refine ⟨rfl, by simp [try_inventory_quantity_outcome], ?_⟩
  simp [handle_url_probe, variant_loop_abort]

end BlackEagle
